import Mathlib

/-!
Shallow embedding of the MaskMark augmentation/loader core:
`src/models/noise_layers/geometric.py` (geometric noise operators) and
`src/utils/loader.py` (COCO mask materializer and batch collator).

Tensors are modelled as rectangular lists of rationals.  Pixel values,
scale fractions and interpolation weights are exact rationals; the
Python `int(...)` truncation is `pyInt`.  Randomness (`torch.randint`,
`torch.rand`, `random.randint`, `random.seed`, `torch.manual_seed`) is
modelled by explicit generator state threaded through every call: a
`RandSt` carries two pure streams (one for the torch generator, one for
the Python `random` module) together with the current (seed, index)
position of each, so `manual_seed` is an observable state reset and
every sampling primitive consumes one draw.

All rational arithmetic inside the model goes through `qadd`/`qsub`/
`qmul`/`qdiv`/`qn`/`qz`, which are kernel-computable (built on `mkRat`)
and proved equal to the field operations of `ℚ`, so concrete runs of the
model can be evaluated by `decide` while general theorems use ordinary
field reasoning.
-/

/-! ### Kernel-computable rational arithmetic -/

def qadd (a b : ℚ) : ℚ := mkRat (a.num * b.den + b.num * a.den) (a.den * b.den)

def qneg (a : ℚ) : ℚ := mkRat (-a.num) a.den

def qsub (a b : ℚ) : ℚ := qadd a (qneg b)

def qmul (a b : ℚ) : ℚ := mkRat (a.num * b.num) (a.den * b.den)

def qdiv (a b : ℚ) : ℚ :=
  if 0 ≤ b.num then mkRat (a.num * b.den) (a.den * b.num.toNat)
  else mkRat (-(a.num * b.den)) (a.den * (-b.num).toNat)

def qn (n : ℕ) : ℚ := mkRat n 1

def qz (z : ℤ) : ℚ := mkRat z 1

theorem qden_cast_ne (a : ℚ) : ((a.den : ℚ)) ≠ 0 := by
  exact_mod_cast a.den_nz

theorem qadd_eq (a b : ℚ) : qadd a b = a + b := by
  rw [qadd, Rat.mkRat_eq_div]
  push_cast
  conv_rhs => rw [← Rat.num_div_den a, ← Rat.num_div_den b]
  rw [div_add_div _ _ (qden_cast_ne a) (qden_cast_ne b)]
  ring_nf

theorem qneg_eq (a : ℚ) : qneg a = -a := by
  rw [qneg, Rat.mkRat_eq_div]
  push_cast
  rw [neg_div, Rat.num_div_den]

theorem qsub_eq (a b : ℚ) : qsub a b = a - b := by
  rw [qsub, qadd_eq, qneg_eq, sub_eq_add_neg]

theorem qmul_eq (a b : ℚ) : qmul a b = a * b := by
  rw [qmul, Rat.mkRat_eq_div]
  push_cast
  conv_rhs => rw [← Rat.num_div_den a, ← Rat.num_div_den b]
  rw [div_mul_div_comm]

theorem qmulden_eq_num (a : ℚ) : a * (a.den : ℚ) = (a.num : ℚ) := by
  nth_rewrite 1 [← Rat.num_div_den a]
  exact div_mul_cancel₀ _ (qden_cast_ne a)

theorem qdiv_eq (a b : ℚ) : qdiv a b = a / b := by
  rcases eq_or_ne b 0 with rfl | hb
  · simp [qdiv, Rat.mkRat_eq_div]
  · have hnum : (b.num : ℚ) ≠ 0 := by
      exact_mod_cast Rat.num_ne_zero.mpr hb
    have ha := qmulden_eq_num a
    have hb2 := qmulden_eq_num b
    rw [qdiv]
    split
    · rename_i hge
      have ht : ((b.num.toNat : ℕ) : ℚ) = (b.num : ℚ) := by
        exact_mod_cast Int.toNat_of_nonneg hge
      rw [Rat.mkRat_eq_div]
      push_cast [ht]
      rw [div_eq_div_iff (mul_ne_zero (qden_cast_ne a) hnum) hb]
      linear_combination (-(b : ℚ) * (b.den : ℚ)) * ha + ((a : ℚ) * (a.den : ℚ)) * hb2
    · rename_i hlt
      push_neg at hlt
      have ht : (((-b.num).toNat : ℕ) : ℚ) = -(b.num : ℚ) := by
        have h2 : ((-b.num).toNat : ℤ) = -b.num := Int.toNat_of_nonneg (by omega)
        exact_mod_cast h2
      have hY : ((a.den : ℚ)) * -((b.num : ℚ)) ≠ 0 :=
        mul_ne_zero (qden_cast_ne a) (neg_ne_zero.mpr hnum)
      rw [Rat.mkRat_eq_div]
      push_cast [ht]
      rw [div_eq_div_iff hY hb]
      linear_combination ((b : ℚ) * (b.den : ℚ)) * ha + (-(a : ℚ) * (a.den : ℚ)) * hb2

def q0 : ℚ := 0

def q1 : ℚ := 1

def qhalf : ℚ := mkRat 1 2

/-- Python `int(...)` applied to an exact rational: truncation toward zero. -/
def pyInt (q : ℚ) : ℤ := q.num.tdiv q.den

theorem pyInt_natCast (n : ℕ) : pyInt (qn n) = n := by
  simp [pyInt, qn, Rat.mkRat_one]

/-! ### Matrices (2-D tensors) -/

/-- A single spatial plane (H, W) of a tensor; a list of rows. -/
abbrev Mat := List (List ℚ)

/-- A (K, H, W) tensor: a list of channel planes. -/
abbrev Chans := List Mat

/-- A (B, C, H, W) tensor: a batch of channel stacks. -/
abbrev Batch := List Chans

def matH (m : Mat) : ℕ := m.length

def matW (m : Mat) : ℕ := (m.headD []).length

def getPixD (m : Mat) (i j : ℕ) (d : ℚ) : ℚ := (((m[i]?).getD [])[j]?).getD d

def rowOf (m : Mat) (i : ℕ) : List ℚ := (m[i]?).getD []

def zeroMat (h w : ℕ) : Mat := List.replicate h (List.replicate w q0)

def zeroLike (m : Mat) : Mat := m.map (fun row => row.map (fun _ => q0))

/-- `np.maximum` / `torch.max` of two planes, element-wise. -/
def matMax (a b : Mat) : Mat := List.zipWith (List.zipWith max) a b

/-! ### Loader: `CocoImageIDWrapper._load_mask`, `__getitem__`, `custom_collate`
(`src/utils/loader.py`).

`dec` stands for `maskUtils.decode (coco.annToRLE ann)`: the external
RLE decoding of one annotation into a dense (H, W) mask.  `sh` is the
outcome of `random.shuffle` for this call (the permutation actually
produced by the Python global generator), and `kd` the draw behind
`np.random.randint(1, max_nb_masks + 1)`, so that
`1 + kd % max_nb_masks` ranges over exactly the support `[1, max]`. -/

/-- Union-mode accumulation: start from an all-zero (H, W) mask and fold
`np.maximum` over the decoded annotations. -/
def unionMask (A : Type) (dec : A → Mat) (H W : ℕ) (anns : List A) : Mat :=
  anns.foldl (fun acc a => matMax acc (dec a)) (zeroMat H W)

/-- The annotation list after the optional `random.shuffle(anns)`. -/
def shuffledAnns (A : Type) (random_nb_object : Bool) (sh : List A → List A)
    (anns : List A) : List A :=
  if random_nb_object then sh anns else anns

/-- The target channel count: `np.random.randint(1, max_nb_masks + 1)`
during training (the draw `kd` mapped onto the support `[1, max]`),
`max_nb_masks` otherwise. -/
def nbMasksOf (is_train : Bool) (max_nb_masks kd : ℕ) : ℕ :=
  if is_train then 1 + kd % max_nb_masks else max_nb_masks

/-- `CocoImageIDWrapper._load_mask`.  Returns `none` (the skip sentinel)
when the image has no annotations. -/
def loadMask (A : Type) (dec : A → Mat) (random_nb_object : Bool) (max_nb_masks : ℕ)
    (multi_w is_train : Bool) (H W : ℕ) (anns : List A)
    (sh : List A → List A) (kd : ℕ) : Option Chans :=
  if anns.isEmpty then none
  else
    let anns1 := shuffledAnns A random_nb_object sh anns
    if multi_w then
      let nb := nbMasksOf is_train max_nb_masks kd
      let kept := anns1.take nb
      let masks := kept.map dec
      if masks.isEmpty then some (List.replicate nb (zeroMat H W))
      else some (masks ++ List.replicate (nb - masks.length) (zeroMat H W))
    else
      some [unionMask A dec H W anns1]

/-- `CocoImageIDWrapper.__getitem__`: skip samples whose mask is the
sentinel, else apply the image and mask transforms. -/
def getItem (A : Type) (dec : A → Mat) (random_nb_object : Bool) (max_nb_masks : ℕ)
    (multi_w is_train : Bool) (H W : ℕ) (img : Chans) (anns : List A)
    (sh : List A → List A) (kd : ℕ) (tf : Chans → Chans) (mtf : Chans → Chans) :
    Option (Chans × Chans) :=
  match loadMask A dec random_nb_object max_nb_masks multi_w is_train H W anns sh kd with
  | none => none
  | some m => some (tf img, mtf m)

/-- `max(mask.shape[0] for mask in masks)` over the surviving samples. -/
def maxMasks (masks : List Chans) : ℕ := (masks.map List.length).foldl max 0

/-- `torch.max(mask, dim=0).values`: union across the channel dimension. -/
def unionOf (c : Chans) : Mat :=
  match c with
  | [] => []
  | m :: rest => rest.foldl matMax m

def zeroChan (c : Chans) : Mat := zeroLike (c.headD [])

/-- The per-sample padding step of `custom_collate`.  The union across
channels is computed and then never used, exactly as in the source. -/
def padChans (mm : ℕ) (c : Chans) : Chans :=
  let _union := unionOf c
  if mm - c.length > 0 then c ++ List.replicate (mm - c.length) (zeroChan c) else c

/-- `custom_collate`: drop skip sentinels, return an explicit empty batch
when nothing survives, stack directly when every sample has one mask
channel, and otherwise zero-pad each sample to the batch maximum. -/
def custom_collate (batch : List (Option (Chans × Chans))) : List Chans × List Chans :=
  if (batch.filterMap id).isEmpty then ([], [])
  else if maxMasks ((batch.filterMap id).map Prod.snd) = 1 then
    ((batch.filterMap id).map Prod.fst, (batch.filterMap id).map Prod.snd)
  else
    ((batch.filterMap id).map Prod.fst,
      ((batch.filterMap id).map Prod.snd).map
        (padChans (maxMasks ((batch.filterMap id).map Prod.snd))))

/-! ### Loader claims -/

theorem rowMax_right_comm (c a b : List ℚ) :
    List.zipWith max (List.zipWith max c a) b
      = List.zipWith max (List.zipWith max c b) a := by
  induction c generalizing a b with
  | nil => simp
  | cons x xs ih =>
    cases a with
    | nil => simp
    | cons y ys =>
      cases b with
      | nil => simp
      | cons z zs =>
        simp only [List.zipWith]
        refine congrArg₂ _ ?_ (ih ys zs)
        rw [max_assoc, max_comm y z, ← max_assoc]

theorem matMax_right_comm (c a b : Mat) :
    matMax (matMax c a) b = matMax (matMax c b) a := by
  unfold matMax
  induction c generalizing a b with
  | nil => simp
  | cons x xs ih =>
    cases a with
    | nil => simp
    | cons y ys =>
      cases b with
      | nil => simp
      | cons z zs =>
        simp only [List.zipWith]
        exact congrArg₂ _ (rowMax_right_comm x y z) (ih ys zs)

theorem foldl_matMax_perm (A : Type) (dec : A → Mat) (l l' : List A)
    (hp : l.Perm l') :
    ∀ init : Mat,
      l.foldl (fun acc a => matMax acc (dec a)) init
        = l'.foldl (fun acc a => matMax acc (dec a)) init := by
  induction hp with
  | nil => intro init; rfl
  | cons x _ ih => intro init; simpa using ih (matMax init (dec x))
  | swap x y l =>
    intro init
    simp only [List.foldl_cons]
    rw [matMax_right_comm]
  | trans _ _ ih1 ih2 => intro init; rw [ih1, ih2]

/-- Claim C8: in union mode the materialized mask is invariant under any
permutation of the annotation list: the element-wise-maximum accumulation
over a reordered list produces an identical single-channel mask. -/
theorem union_mode_commutes (A : Type) (dec : A → Mat) (H W : ℕ)
    (l l' : List A) (hp : l.Perm l') :
    unionMask A dec H W l = unionMask A dec H W l' :=
  foldl_matMax_perm A dec l l' hp (zeroMat H W)

/-- Witness for C8 at a concrete two-annotation list and its swap. -/
theorem union_mode_commutes_witness :
    unionMask ℕ (fun n => [[qn n]]) 1 1 [1, 2]
      = unionMask ℕ (fun n => [[qn n]]) 1 1 [2, 1] :=
  union_mode_commutes ℕ (fun n => [[qn n]]) 1 1 [1, 2] [2, 1] (by decide)

/-- Claim C5: zero annotations yield the skip sentinel from `_load_mask`
and `__getitem__`; the collator's output depends only on the non-skip
samples (skips never appear in a collated batch); and a batch of only
skips collates to the explicit empty batch `([], [])`. -/
theorem skip_propagation :
    (∀ (A : Type) (dec : A → Mat) rno mx mw it H W sh kd,
        loadMask A dec rno mx mw it H W [] sh kd = none) ∧
    (∀ (A : Type) (dec : A → Mat) rno mx mw it H W img sh kd tf mtf,
        getItem A dec rno mx mw it H W img [] sh kd tf mtf = none) ∧
    (∀ batch : List (Option (Chans × Chans)),
        custom_collate batch = custom_collate ((batch.filterMap id).map some)) ∧
    (∀ n, custom_collate (List.replicate n (none : Option (Chans × Chans))) = ([], [])) := by
  refine ⟨?_, ?_, ?_, ?_⟩
  · intros; rfl
  · intros; rfl
  · intro batch
    have h : ((batch.filterMap id).map some).filterMap id = batch.filterMap id := by
      rw [List.filterMap_map]
      simp [List.filterMap_some]
    unfold custom_collate
    rw [h]
  · intro n
    have h : (List.replicate n (none : Option (Chans × Chans))).filterMap id = [] := by
      induction n with
      | zero => rfl
      | succ k ih => simp [List.replicate_succ, ih]
    unfold custom_collate
    rw [h]
    rfl

/-- Claim C6: in multi-mask mode, for an image with at least one
annotation, the materializer truncates the (optionally shuffled)
annotation list to its first K elements, decodes each to its own
channel and zero-pads to exactly K channels, where K is `1 + kd % max`
(support exactly `[1, max]`) during training and exactly `max`
otherwise. -/
theorem multimask_materializer (A : Type) (dec : A → Mat) (rno it : Bool)
    (mx H W kd : ℕ) (anns : List A) (sh : List A → List A)
    (hne : anns ≠ []) (hmx : 1 ≤ mx) :
    loadMask A dec rno mx true it H W anns sh kd
      = some (((shuffledAnns A rno sh anns).take (nbMasksOf it mx kd)).map dec
          ++ List.replicate (nbMasksOf it mx kd - (shuffledAnns A rno sh anns).length)
            (zeroMat H W)) ∧
    (((shuffledAnns A rno sh anns).take (nbMasksOf it mx kd)).map dec
          ++ List.replicate (nbMasksOf it mx kd - (shuffledAnns A rno sh anns).length)
            (zeroMat H W)).length = nbMasksOf it mx kd ∧
    (it = true → 1 ≤ nbMasksOf it mx kd ∧ nbMasksOf it mx kd ≤ mx) ∧
    (it = false → nbMasksOf it mx kd = mx) ∧
    (∀ k, 1 ≤ k → k ≤ mx → ∃ d, 1 + d % mx = k) := by
  have hnb : 1 ≤ nbMasksOf it mx kd := by
    unfold nbMasksOf
    cases it
    · simp [hmx]
    · simp
  refine ⟨?_, ?_, ?_, ?_, ?_⟩
  · unfold loadMask
    rw [if_neg (by simp [List.isEmpty_iff, hne])]
    simp only [if_pos rfl]
    by_cases hm :
        (((shuffledAnns A rno sh anns).take (nbMasksOf it mx kd)).map dec).isEmpty = true
    · rw [if_pos hm]
      have ht : (shuffledAnns A rno sh anns).take (nbMasksOf it mx kd) = [] := by
        simpa [List.isEmpty_iff] using hm
      have hl : shuffledAnns A rno sh anns = [] := by
        rcases List.take_eq_nil_iff.mp ht with h | h
        · omega
        · exact h
      simp [ht, hl]
    · rw [if_neg hm]
      have hlen : (((shuffledAnns A rno sh anns).take (nbMasksOf it mx kd)).map dec).length
          = min (nbMasksOf it mx kd) (shuffledAnns A rno sh anns).length := by
        simp
      rw [hlen]
      have : nbMasksOf it mx kd - min (nbMasksOf it mx kd) (shuffledAnns A rno sh anns).length
          = nbMasksOf it mx kd - (shuffledAnns A rno sh anns).length := by omega
      rw [this]
      simp
  · simp only [List.length_append, List.length_map, List.length_take, List.length_replicate]
    omega
  · intro hit
    subst hit
    have h2 : nbMasksOf true mx kd = 1 + kd % mx := by simp [nbMasksOf]
    have h3 := Nat.mod_lt kd (show 0 < mx by omega)
    rw [h2]
    omega
  · intro hit
    subst hit
    rfl
  · intro k hk1 hk2
    refine ⟨k - 1, ?_⟩
    have : (k - 1) % mx = k - 1 := Nat.mod_eq_of_lt (by omega)
    omega

def c6anns : List ℕ := [5, 7]

def c6dec : ℕ → Mat := fun n => [[qn n]]

/-- Witness for C6: two annotations, eval mode, `max_nb_masks = 3`:
the result is both decoded masks plus one zero channel. -/
theorem multimask_materializer_witness :
    loadMask ℕ c6dec false 3 true false 1 1 c6anns id 0
      = some (((shuffledAnns ℕ false id c6anns).take (nbMasksOf false 3 0)).map c6dec
          ++ List.replicate (nbMasksOf false 3 0 - (shuffledAnns ℕ false id c6anns).length)
            (zeroMat 1 1)) ∧
    (((shuffledAnns ℕ false id c6anns).take (nbMasksOf false 3 0)).map c6dec
          ++ List.replicate (nbMasksOf false 3 0 - (shuffledAnns ℕ false id c6anns).length)
            (zeroMat 1 1)).length = nbMasksOf false 3 0 ∧
    (false = true → 1 ≤ nbMasksOf false 3 0 ∧ nbMasksOf false 3 0 ≤ 3) ∧
    (false = false → nbMasksOf false 3 0 = 3) ∧
    (∀ k, 1 ≤ k → k ≤ 3 → ∃ d, 1 + d % 3 = k) :=
  multimask_materializer ℕ c6dec false false 3 1 1 0 c6anns id (by decide) (by decide)

theorem foldl_max_init_le (l : List ℕ) (a : ℕ) : a ≤ l.foldl max a := by
  induction l generalizing a with
  | nil => simp
  | cons x xs ih => exact le_trans (le_max_left a x) (ih (max a x))

theorem le_foldl_max (l : List ℕ) (a x : ℕ) (hx : x ∈ l) : x ≤ l.foldl max a := by
  induction l generalizing a with
  | nil => cases hx
  | cons y ys ih =>
    rcases List.mem_cons.mp hx with rfl | hx2
    · exact le_trans (le_max_right a x) (foldl_max_init_le ys (max a x))
    · exact ih (max a y) hx2

theorem padChans_eq (mm : ℕ) (c : Chans) :
    padChans mm c = c ++ List.replicate (mm - c.length) (zeroChan c) := by
  unfold padChans
  split
  · rfl
  · rename_i h
    have h0 : mm - c.length = 0 := by omega
    simp [h0]

/-- Claim C4: for a non-empty list of surviving samples the collator
returns one mask stack per sample with channel count equal to the batch
maximum; when the maximum is 1 the masks are stacked unchanged, and
otherwise each sample is extended by appended all-zero channels, with
samples already at the maximum passed through unchanged. -/
theorem collate_padding_invariant (batch : List (Option (Chans × Chans)))
    (surv : List (Chans × Chans)) (hs : surv = batch.filterMap id)
    (mm : ℕ) (hmm : mm = maxMasks (surv.map Prod.snd))
    (hne : surv ≠ []) (hpos : ∀ p ∈ surv, 1 ≤ p.2.length) :
    ((custom_collate batch).2.length = surv.length) ∧
    (∀ c ∈ (custom_collate batch).2, c.length = mm) ∧
    (mm = 1 → (custom_collate batch).2 = surv.map Prod.snd) ∧
    List.Forall₂
      (fun p c => c = p.2 ++ List.replicate (mm - p.2.length) (zeroChan p.2)
        ∧ (p.2.length = mm → c = p.2)) surv (custom_collate batch).2 := by
  have hlen_le : ∀ p ∈ surv, p.2.length ≤ mm := by
    intro p hp
    rw [hmm]
    exact le_foldl_max _ 0 _
      (by simpa using List.mem_map_of_mem List.length (List.mem_map_of_mem Prod.snd hp))
  have hcc : custom_collate batch
      = (if mm = 1 then (surv.map Prod.fst, surv.map Prod.snd)
         else (surv.map Prod.fst, (surv.map Prod.snd).map (padChans mm))) := by
    unfold custom_collate
    rw [← hs, ← hmm]
    rw [if_neg (by simp [List.isEmpty_iff, hne])]
  by_cases h1 : mm = 1
  · rw [hcc, if_pos h1]
    refine ⟨by simp, ?_, fun _ => rfl, ?_⟩
    · intro c hc
      obtain ⟨p, hp, rfl⟩ := List.mem_map.mp hc
      have := hlen_le p hp
      have := hpos p hp
      omega
    · rw [List.forall₂_map_right_iff, List.forall₂_same]
      intro p hp
      have hle := hlen_le p hp
      have hge := hpos p hp
      have hlen : p.2.length = mm := by omega
      simp [hlen]
  · rw [hcc, if_neg h1]
    refine ⟨by simp, ?_, fun h => absurd h h1, ?_⟩
    · intro c hc
      simp only [List.map_map] at hc
      obtain ⟨p, hp, rfl⟩ := List.mem_map.mp hc
      have := hlen_le p hp
      simp only [Function.comp, padChans_eq]
      simp only [List.length_append, List.length_replicate]
      omega
    · rw [List.map_map, List.forall₂_map_right_iff, List.forall₂_same]
      intro p hp
      have hle := hlen_le p hp
      refine ⟨by simp [Function.comp, padChans_eq], ?_⟩
      intro hlen
      simp [Function.comp, padChans_eq, hlen]

def c4batch : List (Option (Chans × Chans)) :=
  [some ([[[q1]]], [[[q1]]]), none, some ([[[q1]]], [[[q1]], [[q0]]])]

def c4surv : List (Chans × Chans) :=
  [([[[q1]]], [[[q1]]]), ([[[q1]]], [[[q1]], [[q0]]])]

/-- Witness for C4: a batch with one skip, mask channel counts 1 and 2. -/
theorem collate_padding_invariant_witness :
    ((custom_collate c4batch).2.length = c4surv.length) ∧
    (∀ c ∈ (custom_collate c4batch).2, c.length = 2) ∧
    (2 = 1 → (custom_collate c4batch).2 = c4surv.map Prod.snd) ∧
    List.Forall₂
      (fun p c => c = p.2 ++ List.replicate (2 - p.2.length) (zeroChan p.2)
        ∧ (p.2.length = 2 → c = p.2)) c4surv (custom_collate c4batch).2 :=
  collate_padding_invariant c4batch c4surv (by decide) 2 (by decide) (by decide)
    (by decide)

/-! ### Random state (`torch` and Python `random` global generators)

A `RandSt` holds two pure streams `ts`/`ps` (arbitrary functions from
(seed, index) to a natural draw, standing for the torch and the Python
generator algorithms) and the current position of each global generator.
`torch.manual_seed(s)` / `random.seed(s)` reset the respective position
to `(s, 0)`.  `torch.randint(lo, hi)` maps a draw onto `[lo, hi)` and
fails on an empty range, like the RuntimeError it raises in torch;
`random.randint(a, b)` is inclusive on both ends.  `torch.rand()` is a
draw mapped into `[0, 1)`. -/

structure Gen where
  seed : ℕ
  ix : ℕ

structure RandSt where
  ts : ℕ → ℕ → ℕ
  ps : ℕ → ℕ → ℕ
  tg : Gen
  pg : Gen

def torchDraw (r : RandSt) : ℕ × RandSt :=
  (r.ts r.tg.seed r.tg.ix, { r with tg := ⟨r.tg.seed, r.tg.ix + 1⟩ })

def pyDraw (r : RandSt) : ℕ × RandSt :=
  (r.ps r.pg.seed r.pg.ix, { r with pg := ⟨r.pg.seed, r.pg.ix + 1⟩ })

inductive GeoErr where
  /-- `ValueError("... must be provided")` when sampling bounds are unset. -/
  | configErr
  /-- `torch.randint` / `np.random.randint` with an empty integer range. -/
  | emptyRange
  /-- `RandomCrop.get_params`: requested crop exceeds input size + 1. -/
  | badCropRequest
  /-- `ValueError("Crop size is larger than the original image size.")`. -/
  | cropTooLarge
deriving DecidableEq

def torchRandint (lo hi : ℤ) (r : RandSt) : Except GeoErr (ℤ × RandSt) :=
  if lo < hi then
    .ok (lo + ((torchDraw r).1 : ℤ) % (hi - lo), (torchDraw r).2)
  else .error .emptyRange

def pyRandint (a b : ℤ) (r : RandSt) : Except GeoErr (ℤ × RandSt) :=
  if a ≤ b then
    .ok (a + ((pyDraw r).1 : ℤ) % (b - a + 1), (pyDraw r).2)
  else .error .emptyRange

/-- `torch.rand(())`: one uniform draw in [0, 1), modelled with three
digits of the underlying stream draw. -/
def torchRand01 (r : RandSt) : ℚ × RandSt :=
  (mkRat ((torchDraw r).1 % 1000) 1000, (torchDraw r).2)

/-- `torch.manual_seed(s)` immediately followed by `random.seed(s)`. -/
def manualSeedBoth (s : ℕ) (r : RandSt) : RandSt :=
  { r with tg := ⟨s, 0⟩, pg := ⟨s, 0⟩ }

def applySeed (seed : Option ℕ) (r : RandSt) : RandSt :=
  match seed with
  | some s => manualSeedBoth s r
  | none => r

/-! ### torchvision primitives used by the operators -/

/-- `F.crop(img, top, left, h, w)` (in-bounds slicing). -/
def cropM (m : Mat) (top left h w : ℕ) : Mat :=
  ((m.drop top).take h).map (fun row => (row.drop left).take w)

/-- `F.resize(m, (oh, ow), interpolation=NEAREST)`: output pixel (i, j)
copies input pixel (⌊i·H/oh⌋, ⌊j·W/ow⌋). -/
def resizeNearest (oh ow : ℕ) (m : Mat) : Mat :=
  (List.range oh).map fun i =>
    (List.range ow).map fun j =>
      getPixD m (i * m.length / oh) (j * matW m / ow) q0

/-- One axis of bilinear interpolation, align_corners=False: source
coordinate `max(0, (i + 1/2)·n/outn − 1/2)`, then a convex combination
of the two neighbouring samples. -/
def interpAt (xs : List ℚ) (n outn i : ℕ) : ℚ :=
  let s := max q0 (qsub (qdiv (qmul (qadd (qn i) qhalf) (qn n)) (qn outn)) qhalf)
  let y0 := min (⌊s⌋).toNat (n - 1)
  let y1 := min (y0 + 1) (n - 1)
  let lam := qsub s (qz ⌊s⌋)
  qadd (qmul (qsub q1 lam) ((xs[y0]?).getD q0)) (qmul lam ((xs[y1]?).getD q0))

/-- `F.resize(m, (oh, ow), antialias=False)`: separable bilinear
interpolation, width axis then height axis. -/
def resizeBilinear (oh ow : ℕ) (m : Mat) : Mat :=
  (List.range oh).map fun i =>
    (List.range ow).map fun j =>
      interpAt ((List.range m.length).map fun y => interpAt (rowOf m y) (matW m) ow j)
        m.length oh i

/-- `transforms.RandomCrop.get_params(img, output_size)`. -/
def randomCropParams (h w th tw : ℕ) (r : RandSt) : Except GeoErr ((ℕ × ℕ × ℕ × ℕ) × RandSt) :=
  if h + 1 < th ∨ w + 1 < tw then .error .badCropRequest
  else if w = tw ∧ h = th then .ok ((0, 0, h, w), r)
  else
    match torchRandint 0 ((h : ℤ) - th + 1) r with
    | .error e => .error e
    | .ok (i, r1) =>
      match torchRandint 0 ((w : ℤ) - tw + 1) r1 with
      | .error e => .error e
      | .ok (j, r2) => .ok ((i.toNat, j.toNat, th, tw), r2)

/-- The shared `get_random_size` body of Resize / Crop / UpperLeftCrop
and `CropResizePad.get_random_resize_size`:
`torch.randint(int(min*d), int(max*d) + 1)` per dimension. -/
def getRandomSize : Option ℚ → Option ℚ → ℕ → ℕ → RandSt → Except GeoErr ((ℤ × ℤ) × RandSt)
  | some a, some b, h, w, r =>
    (match torchRandint (pyInt (qmul a (qn h))) (pyInt (qmul b (qn h)) + 1) r with
     | .error e => .error e
     | .ok (x, r1) =>
       match torchRandint (pyInt (qmul a (qn w))) (pyInt (qmul b (qn w)) + 1) r1 with
       | .error e => .error e
       | .ok (y, r2) => .ok ((x, y), r2))
  | none, _, _, _, _ => .error .configErr
  | _, none, _, _, _ => .error .configErr

/-- `CropResizePad.get_random_crop_size`: like `getRandomSize` but the
exclusive upper bound is additionally capped at the dimension itself:
`torch.randint(int(min*d), min(int(max*d) + 1, d))`. -/
def getRandomCropSize : Option ℚ → Option ℚ → ℕ → ℕ → RandSt → Except GeoErr ((ℤ × ℤ) × RandSt)
  | some a, some b, h, w, r =>
    (match torchRandint (pyInt (qmul a (qn h))) (min (pyInt (qmul b (qn h)) + 1) (h : ℤ)) r with
     | .error e => .error e
     | .ok (x, r1) =>
       match torchRandint (pyInt (qmul a (qn w))) (min (pyInt (qmul b (qn w)) + 1) (w : ℤ)) r1 with
       | .error e => .error e
       | .ok (y, r2) => .ok ((x, y), r2))
  | none, _, _, _, _ => .error .configErr
  | _, none, _, _, _ => .error .configErr

/-- Target size of Crop / UpperLeftCrop: `(int(size*h), int(size*w))`
when an explicit fraction is given, otherwise sampled. -/
def resolveSize (mn mx : Option ℚ) (h w : ℕ) :
    Option ℚ → RandSt → Except GeoErr ((ℤ × ℤ) × RandSt)
  | some s, r => .ok ((pyInt (qmul s (qn h)), pyInt (qmul s (qn w))), r)
  | none, r => getRandomSize mn mx h w r

/-! ### Geometric operators -/

/-- Abstract source-pixel map of torchvision `F.rotate` (nearest
interpolation, fill 0, expand=False): for an angle and an (h, w) plane,
output pixel (i, j) either copies one input pixel or is outside the
rotated content (`none`, filled with 0).  The trigonometric grid lives
in torchvision; the claims proved here hold for every such map. -/
abbrev RotSrc := ℤ → ℕ → ℕ → ℕ → ℕ → Option (ℕ × ℕ)

/-- Nearest-neighbour grid sampling with a constant fill value. -/
def gridSampleNearest (src : ℕ → ℕ → Option (ℕ × ℕ)) (fill : ℚ) (m : Mat) : Mat :=
  (List.range m.length).map fun i =>
    (List.range (matW m)).map fun j =>
      match src i j with
      | some (a, b) => getPixD m a b fill
      | none => fill

def Rotate.get_random_angle (min_angle max_angle : Option ℤ) (r : RandSt) :
    Except GeoErr (ℤ × RandSt) :=
  match min_angle, max_angle with
  | some lo, some hi => torchRandint lo (hi + 1) r
  | _, _ => .error .configErr

/-- `Rotate.forward`: rotate image and mask by the same angle (both with
torchvision's default nearest interpolation and zero fill). -/
def Rotate.forward (rs : RotSrc) (min_angle max_angle : Option ℤ) (image mask : Mat)
    (angle : Option ℤ) (r : RandSt) : Except GeoErr ((Mat × Mat) × RandSt) :=
  match angle with
  | some a =>
    .ok ((gridSampleNearest (rs a image.length (matW image)) q0 image,
          gridSampleNearest (rs a mask.length (matW mask)) q0 mask), r)
  | none =>
    match Rotate.get_random_angle min_angle max_angle r with
    | .error e => .error e
    | .ok (a, r1) =>
      .ok ((gridSampleNearest (rs a image.length (matW image)) q0 image,
            gridSampleNearest (rs a mask.length (matW mask)) q0 mask), r1)

/-- `Resize.forward`: `rif` abstracts `F.resize(image, ..., antialias=True)`
(the smoothing filter on the image branch); the mask branch is
nearest-neighbour. -/
def Resize.forward (rif : ℕ → ℕ → Mat → Mat) (min_size max_size : Option ℚ)
    (image mask : Mat) (size : Option ℚ) (r : RandSt) : Except GeoErr ((Mat × Mat) × RandSt) :=
  match size with
  | some s =>
    .ok ((rif (pyInt (qmul s (qn image.length))).toNat (pyInt (qmul s (qn (matW image)))).toNat image,
          resizeNearest (pyInt (qmul s (qn image.length))).toNat
            (pyInt (qmul s (qn (matW image)))).toNat mask), r)
  | none =>
    match getRandomSize min_size max_size image.length (matW image) r with
    | .error e => .error e
    | .ok ((oh, ow), r1) =>
      .ok ((rif oh.toNat ow.toNat image, resizeNearest oh.toNat ow.toNat mask), r1)

/-- `Crop.forward`: resolve the target size (explicit fraction or
sampled), then sample a random window via `RandomCrop.get_params` and
slice image and mask identically. -/
def Crop.forward (min_size max_size : Option ℚ) (image mask : Mat) (size : Option ℚ)
    (r : RandSt) : Except GeoErr ((Mat × Mat) × RandSt) :=
  match resolveSize min_size max_size image.length (matW image) size r with
  | .error e => .error e
  | .ok ((th, tw), r1) =>
    match randomCropParams image.length (matW image) th.toNat tw.toNat r1 with
    | .error e => .error e
    | .ok ((i, j, ch, cw), r2) =>
      .ok ((cropM image i j ch cw, cropM mask i j ch cw), r2)

/-- `UpperLeftCrop.forward`: same size handling as Crop, but the window
is pinned to the origin (the sampled offset from `get_params` is
discarded). -/
def UpperLeftCrop.forward (min_size max_size : Option ℚ) (image mask : Mat)
    (size : Option ℚ) (r : RandSt) : Except GeoErr ((Mat × Mat) × RandSt) :=
  match resolveSize min_size max_size image.length (matW image) size r with
  | .error e => .error e
  | .ok ((th, tw), r1) =>
    match randomCropParams image.length (matW image) th.toNat tw.toNat r1 with
    | .error e => .error e
    | .ok ((_, _, ch, cw), r2) =>
      .ok ((cropM image 0 0 ch cw, cropM mask 0 0 ch cw), r2)

/-! ### Claims about the geometric operators -/

/-- Project an operator result onto its (image, mask) value, discarding
the returned generator state. -/
def okFst (e : Except GeoErr ((Mat × Mat) × RandSt)) : Option (Mat × Mat) :=
  match e with
  | .ok (p, _) => some p
  | .error _ => none

def errOf {α : Type} (e : Except GeoErr α) : Option GeoErr :=
  match e with
  | .error g => some g
  | .ok _ => none

theorem torchRandint_ok (lo hi : ℤ) (r : RandSt) (v : ℤ) (r2 : RandSt)
    (h : torchRandint lo hi r = .ok (v, r2)) : lo ≤ v ∧ v < hi := by
  unfold torchRandint at h
  split_ifs at h with hlt
  injection h with h2
  have hv : v = lo + ((torchDraw r).1 : ℤ) % (hi - lo) := by
    have := congrArg Prod.fst h2
    simpa using this.symm
  have hn : 0 ≤ ((torchDraw r).1 : ℤ) % (hi - lo) :=
    Int.emod_nonneg _ (by omega)
  have hl : ((torchDraw r).1 : ℤ) % (hi - lo) < hi - lo :=
    Int.emod_lt_of_pos _ (by omega)
  omega

theorem torchRandint_err (lo hi : ℤ) (r : RandSt) (hge : hi ≤ lo) :
    torchRandint lo hi r = .error .emptyRange := by
  unfold torchRandint
  rw [if_neg (by omega)]

/-- The success or failure of `RandomCrop.get_params`, and the returned
crop height/width, do not depend on the generator state — only the
sampled offset does. -/
theorem randomCropParams_err (h w th tw : ℕ) (r r' : RandSt) (e : GeoErr)
    (he : randomCropParams h w th tw r = .error e) :
    randomCropParams h w th tw r' = .error e := by
  unfold randomCropParams torchRandint at he ⊢
  split_ifs at he ⊢ <;> simp_all

theorem randomCropParams_ok_size (h w th tw : ℕ) (r : RandSt) (i j ch cw : ℕ)
    (r2 : RandSt) (hok : randomCropParams h w th tw r = .ok ((i, j, ch, cw), r2)) :
    ch = th ∧ cw = tw := by
  unfold randomCropParams torchRandint at hok
  split_ifs at hok <;> simp_all

/-- Claim C1 (amended): with explicitly supplied parameters, Rotate
(fixed angle), Resize (fixed size) and UpperLeftCrop (fixed size) return
outputs independent of the global random state; Crop, CropResizePad and
Perspective are excluded, as they still sample (see the counterexample). -/
theorem explicit_param_determinism :
    (∀ (rs : RotSrc) mn mx image mask a (r r' : RandSt),
        (Rotate.forward rs mn mx image mask (some a) r).map Prod.fst
          = (Rotate.forward rs mn mx image mask (some a) r').map Prod.fst) ∧
    (∀ rif mn mx image mask s (r r' : RandSt),
        (Resize.forward rif mn mx image mask (some s) r).map Prod.fst
          = (Resize.forward rif mn mx image mask (some s) r').map Prod.fst) ∧
    (∀ mn mx image mask s (r r' : RandSt),
        (UpperLeftCrop.forward mn mx image mask (some s) r).map Prod.fst
          = (UpperLeftCrop.forward mn mx image mask (some s) r').map Prod.fst) := by
  refine ⟨fun _ _ _ _ _ _ _ _ => rfl, fun _ _ _ _ _ _ _ _ => rfl, ?_⟩
  intro mn mx image mask s r r'
  cases hr : randomCropParams image.length (matW image)
      (pyInt (qmul s (qn image.length))).toNat (pyInt (qmul s (qn (matW image)))).toNat r with
  | error e =>
    have hr' := randomCropParams_err _ _ _ _ r r' e hr
    simp [UpperLeftCrop.forward, resolveSize, hr, hr']
  | ok vr =>
    obtain ⟨⟨i, j, ch, cw⟩, r2⟩ := vr
    cases hr' : randomCropParams image.length (matW image)
        (pyInt (qmul s (qn image.length))).toNat (pyInt (qmul s (qn (matW image)))).toNat r' with
    | error e =>
      have := randomCropParams_err _ _ _ _ r' r e hr'
      rw [this] at hr
      cases hr
    | ok vr' =>
      obtain ⟨⟨i', j', ch', cw'⟩, r2'⟩ := vr'
      obtain ⟨hc, hw⟩ := randomCropParams_ok_size _ _ _ _ _ _ _ _ _ _ hr
      obtain ⟨hc', hw'⟩ := randomCropParams_ok_size _ _ _ _ _ _ _ _ _ _ hr'
      subst hc hw hc' hw'
      simp [UpperLeftCrop.forward, resolveSize, Except.map, hr, hr']

def randA : RandSt := ⟨fun _ _ => 0, fun _ _ => 0, ⟨0, 0⟩, ⟨0, 0⟩⟩

def randB : RandSt := ⟨fun _ _ => 1, fun _ _ => 1, ⟨0, 0⟩, ⟨0, 0⟩⟩

/-- Counterexample to C1 as stated: Crop with the same explicit size on
identical inputs returns different outputs under two different global
generator states — the crop offset is still sampled inside `forward`. -/
theorem explicit_param_determinism_cex :
    okFst (Crop.forward (some qhalf) (some qhalf) [[q0, q1], [qn 2, qn 3]]
        [[q0, q1], [qn 2, qn 3]] (some qhalf) randA)
      ≠ okFst (Crop.forward (some qhalf) (some qhalf) [[q0, q1], [qn 2, qn 3]]
        [[q0, q1], [qn 2, qn 3]] (some qhalf) randB) := by
  decide

/-- Claim C10: any crop size sampled by `get_random_crop_size` is
strictly smaller than the resized dimensions (the exclusive upper bound
is capped at the dimension itself), and an empty integer range — e.g.
`int(crop_min*h) ≥ h`, or the analogous condition on `w` — makes the
call fail instead of returning a size. -/
theorem crop_sampler_strictness (a b : ℚ) (h w : ℕ) (r : RandSt) :
    (∀ p r2, getRandomCropSize (some a) (some b) h w r = .ok (p, r2)
        → p.1 < (h : ℤ) ∧ p.2 < (w : ℤ)) ∧
    ((h : ℤ) ≤ pyInt (qmul a (qn h))
        → errOf (getRandomCropSize (some a) (some b) h w r) = some .emptyRange) ∧
    ((w : ℤ) ≤ pyInt (qmul a (qn w))
        → ∀ p r2, getRandomCropSize (some a) (some b) h w r ≠ .ok (p, r2)) := by
  refine ⟨?_, ?_, ?_⟩
  · intro p r2 hok
    simp only [getRandomCropSize] at hok
    split at hok
    · simp at hok
    · rename_i x r1 heq
      split at hok
      · simp at hok
      · rename_i y r2x heq2
        simp only [Except.ok.injEq, Prod.mk.injEq] at hok
        obtain ⟨hp, _⟩ := hok
        have hb1 := (torchRandint_ok _ _ _ _ _ heq).2
        have hb2 := (torchRandint_ok _ _ _ _ _ heq2).2
        have hm1 : min (pyInt (qmul b (qn h)) + 1) (h : ℤ) ≤ (h : ℤ) := min_le_right _ _
        have hm2 : min (pyInt (qmul b (qn w)) + 1) (w : ℤ) ≤ (w : ℤ) := min_le_right _ _
        subst hp
        constructor <;> dsimp only <;> omega
  · intro hle
    simp only [getRandomCropSize]
    rw [torchRandint_err _ _ _ (le_trans (min_le_right _ _) hle)]
    rfl
  · intro hle p r2 hok
    simp only [getRandomCropSize] at hok
    split at hok
    · simp at hok
    · rename_i x r1 heq
      rw [torchRandint_err _ _ _ (le_trans (min_le_right _ _) hle)] at hok
      simp at hok

def crop10rand : RandSt := ⟨fun _ _ => 0, fun _ _ => 0, ⟨0, 2⟩, ⟨0, 0⟩⟩

/-- Witness for C10: with `crop_min = crop_max = 1/2` on a 4×4 resized
plane the sampled crop (2, 2) is strictly smaller than (4, 4); with
`crop_min = 1` the range is empty and the call fails. -/
theorem crop_sampler_strictness_witness :
    (((2 : ℤ), (2 : ℤ)).1 < ((4 : ℕ) : ℤ) ∧ ((2 : ℤ), (2 : ℤ)).2 < ((4 : ℕ) : ℤ)) ∧
    errOf (getRandomCropSize (some (qn 1)) (some (qn 1)) 4 4 randA) = some GeoErr.emptyRange :=
  ⟨(crop_sampler_strictness qhalf qhalf 4 4 randA).1 ((2 : ℤ), (2 : ℤ)) crop10rand (by rfl),
    (crop_sampler_strictness (qn 1) (qn 1) 4 4 randA).2.1 (by decide)⟩

/-! ### CropResizePad (`CropResizePad.forward` works on rank-4 batches) -/

def batchMat (t : Batch) (b c : ℕ) : Mat := ((t[b]?).getD [])[c]?.getD []

def batchC (t : Batch) : ℕ := (t.headD []).length

def batchH (t : Batch) : ℕ := (batchMat t 0 0).length

def batchW (t : Batch) : ℕ := matW (batchMat t 0 0)

def allPix (t : Batch) : List ℚ := (t.map (fun s => (s.map List.flatten).flatten)).flatten

/-- `images.min().item()` (default 0 on an empty tensor is never hit by
the claims, which use non-empty batches). -/
def batchMin (t : Batch) : ℚ :=
  match allPix t with
  | [] => q0
  | x :: xs => xs.foldl min x

def batchMax (t : Batch) : ℚ :=
  match allPix t with
  | [] => q0
  | x :: xs => xs.foldl max x

def torchRandList : ℕ → RandSt → List ℚ × RandSt
  | 0, r => ([], r)
  | n + 1, r =>
    ((torchRand01 r).1 :: (torchRandList n ((torchRand01 r).2)).1,
      (torchRandList n ((torchRand01 r).2)).2)

/-- `pad_color = (max-min) * torch.rand((B, C, 1, 1)) + min`, flattened. -/
def padColors (n : ℕ) (mn mx : ℚ) (r : RandSt) : List ℚ × RandSt :=
  ((torchRandList n r).1.map (fun v => qadd (qmul (qsub mx mn) v) mn),
    (torchRandList n r).2)

def colorAt (colors : List ℚ) (C b c : ℕ) : ℚ := (colors[b * C + c]?).getD q0

/-- A fresh H×W canvas filled with `fill`, with `sub` slice-assigned at
offset (top, left): the padding step of `CropResizePad.forward`. -/
def embed (H W : ℕ) (fill : ℚ) (sub : Mat) (top left : ℕ) : Mat :=
  (List.range H).map fun i =>
    (List.range W).map fun j =>
      if top ≤ i ∧ i < top + sub.length ∧ left ≤ j ∧ j < left + matW sub
      then getPixD sub (i - top) (j - left) fill
      else fill

/-- `crop_h = min(crop_h, new_h); crop_w = min(crop_w, new_w)`: clamp
the crop to the resized dimensions. -/
def clampCrop (crop new : ℕ × ℕ) : ℕ × ℕ := (min crop.1 new.1, min crop.2 new.2)

/-- Resize target and crop size of `CropResizePad.forward`: sampled when
`sizes` is absent, else `(int(s0*H), int(s1*W))` and
`(int(s2*new_h), int(s3*new_w))`. -/
def crpSizes (resize_min resize_max crop_min crop_max : Option ℚ) (H W : ℕ) :
    Option (ℚ × ℚ × ℚ × ℚ) → RandSt → Except GeoErr ((ℕ × ℕ × ℕ × ℕ) × RandSt)
  | none, r =>
    (match getRandomSize resize_min resize_max H W r with
     | .error e => .error e
     | .ok ((nh, nw), r1) =>
       match getRandomCropSize crop_min crop_max nh.toNat nw.toNat r1 with
       | .error e => .error e
       | .ok ((ch, cw), r2) => .ok ((nh.toNat, nw.toNat, ch.toNat, cw.toNat), r2))
  | some (s0, s1, s2, s3), r =>
    .ok (((pyInt (qmul s0 (qn H))).toNat, (pyInt (qmul s1 (qn W))).toNat,
      (pyInt (qmul s2 (qn (pyInt (qmul s0 (qn H))).toNat))).toNat,
      (pyInt (qmul s3 (qn (pyInt (qmul s1 (qn W))).toNat))).toNat), r)

/-- The body of `CropResizePad.forward` after the optional reseed:
resize (bilinear image / nearest mask), clamp and sample the crop
window, slice, validate against the original canvas, then re-embed at a
random offset into canvases of the ORIGINAL size (random per-channel
color for the image, zero for the mask). -/
def crpMain (resize_min resize_max crop_min crop_max : Option ℚ)
    (images masks : Batch) (sizes : Option (ℚ × ℚ × ℚ × ℚ)) (r : RandSt) :
    Except GeoErr ((Batch × Batch) × RandSt) :=
  match crpSizes resize_min resize_max crop_min crop_max
      (batchH images) (batchW images) sizes r with
  | .error e => .error e
  | .ok ((nh, nw, ch0, cw0), r1) =>
    match randomCropParams nh nw (clampCrop (ch0, cw0) (nh, nw)).1
        (clampCrop (ch0, cw0) (nh, nw)).2 r1 with
    | .error e => .error e
    | .ok ((i, j, hh, ww), r2) =>
      if hh > batchH images ∨ ww > batchW images then .error .cropTooLarge
      else
        match pyRandint 0 (max 0 ((batchH images : ℤ) - hh)) r2 with
        | .error e => .error e
        | .ok (pt, r3) =>
          match pyRandint 0 (max 0 ((batchW images : ℤ) - ww)) r3 with
          | .error e => .error e
          | .ok (pl, r4) =>
            .ok (((List.range images.length).map fun b =>
                    (List.range (batchC images)).map fun c =>
                      embed (batchH images) (batchW images)
                        (colorAt (padColors (images.length * batchC images)
                            (batchMin (images.map (fun s => s.map (resizeBilinear nh nw))))
                            (batchMax (images.map (fun s => s.map (resizeBilinear nh nw))))
                            r4).1 (batchC images) b c)
                        (cropM (resizeBilinear nh nw (batchMat images b c)) i j hh ww)
                        pt.toNat pl.toNat,
                  (List.range images.length).map fun b =>
                    (List.range (batchC masks)).map fun c =>
                      embed (batchH images) (batchW images) q0
                        (cropM (resizeNearest nh nw (batchMat masks b c)) i j hh ww)
                        pt.toNat pl.toNat),
              (padColors (images.length * batchC images)
                (batchMin (images.map (fun s => s.map (resizeBilinear nh nw))))
                (batchMax (images.map (fun s => s.map (resizeBilinear nh nw))))
                r4).2)

/-- `CropResizePad.forward`: an explicit seed resets both global
generators before anything is sampled. -/
def CropResizePad.forward (resize_min resize_max crop_min crop_max : Option ℚ)
    (images masks : Batch) (sizes : Option (ℚ × ℚ × ℚ × ℚ)) (seed : Option ℕ)
    (r : RandSt) : Except GeoErr ((Batch × Batch) × RandSt) :=
  crpMain resize_min resize_max crop_min crop_max images masks sizes (applySeed seed r)

/-! ### Perspective -/

structure PCoeffs where
  a : ℚ
  b : ℚ
  c : ℚ
  d : ℚ
  e : ℚ
  f : ℚ
  g : ℚ
  h : ℚ

/-- The inverse-homography pixel map used by `F.perspective`: output
pixel (x, y) samples the input at this point. -/
def perspMap (pc : PCoeffs) (x y : ℚ) : ℚ × ℚ :=
  (qdiv (qadd (qadd (qmul pc.a x) (qmul pc.b y)) pc.c)
     (qadd (qadd (qmul pc.g x) (qmul pc.h y)) q1),
   qdiv (qadd (qadd (qmul pc.d x) (qmul pc.e y)) pc.f)
     (qadd (qadd (qmul pc.g x) (qmul pc.h y)) q1))

/-- The defining equations of the coefficients torchvision's
`_get_perspective_coeffs` solves for: the sampling homography maps each
endpoint to its startpoint. -/
def IsPerspCoeffs (pc : PCoeffs) (startpoints endpoints : List (ℤ × ℤ)) : Prop :=
  ∀ p ∈ endpoints.zip startpoints,
    perspMap pc (qz p.1.1) (qz p.1.2) = (qz p.2.1, qz p.2.2)

/-- Pixel fetch for `grid_sample(..., padding_mode=zeros)`. -/
def pixZ (m : Mat) (y x : ℤ) : ℚ :=
  if 0 ≤ y ∧ 0 ≤ x then getPixD m y.toNat x.toNat q0 else q0

/-- Bilinear sample of `m` at real coordinates (x, y), zero padding. -/
def bilinearAt (m : Mat) (x y : ℚ) : ℚ :=
  qadd
    (qmul (qsub q1 (qsub y (qz ⌊y⌋)))
      (qadd (qmul (qsub q1 (qsub x (qz ⌊x⌋))) (pixZ m ⌊y⌋ ⌊x⌋))
        (qmul (qsub x (qz ⌊x⌋)) (pixZ m ⌊y⌋ (⌊x⌋ + 1)))))
    (qmul (qsub y (qz ⌊y⌋))
      (qadd (qmul (qsub q1 (qsub x (qz ⌊x⌋))) (pixZ m (⌊y⌋ + 1) ⌊x⌋))
        (qmul (qsub x (qz ⌊x⌋)) (pixZ m (⌊y⌋ + 1) (⌊x⌋ + 1)))))

/-- `F.perspective(m, startpoints, endpoints)` with the coefficients
already solved: torchvision's DEFAULT bilinear interpolation — the code
passes no interpolation argument for the mask either. -/
def perspWarp (pc : PCoeffs) (m : Mat) : Mat :=
  (List.range m.length).map fun i =>
    (List.range (matW m)).map fun j =>
      bilinearAt m (perspMap pc (qn j) (qn i)).1 (perspMap pc (qn j) (qn i)).2

def Perspective.get_random_distortion_scale :
    Option ℚ → Option ℚ → RandSt → Except GeoErr (ℚ × RandSt)
  | some lo, some hi, r =>
    .ok (qadd lo (qmul (torchRand01 r).1 (qsub hi lo)), (torchRand01 r).2)
  | none, _, _ => .error .configErr
  | _, none, _ => .error .configErr

/-- The sampling body of `Perspective.get_perspective_params` (after the
optional reseed): four corner displacements bounded by the distortion
scale relative to half width/height. -/
def Perspective.get_perspective_params_core (width height : ℕ) (d : ℚ) (r : RandSt) :
    Except GeoErr ((List (ℤ × ℤ) × List (ℤ × ℤ)) × RandSt) := do
  let (tlx, r1) ← torchRandint 0 (pyInt (qmul d (qn (width / 2))) + 1) r
  let (tly, r2) ← torchRandint 0 (pyInt (qmul d (qn (height / 2))) + 1) r1
  let (trx, r3) ← torchRandint ((width : ℤ) - pyInt (qmul d (qn (width / 2))) - 1) width r2
  let (tryy, r4) ← torchRandint 0 (pyInt (qmul d (qn (height / 2))) + 1) r3
  let (brx, r5) ← torchRandint ((width : ℤ) - pyInt (qmul d (qn (width / 2))) - 1) width r4
  let (bry, r6) ← torchRandint ((height : ℤ) - pyInt (qmul d (qn (height / 2))) - 1) height r5
  let (blx, r7) ← torchRandint 0 (pyInt (qmul d (qn (width / 2))) + 1) r6
  let (bly, r8) ← torchRandint ((height : ℤ) - pyInt (qmul d (qn (height / 2))) - 1) height r7
  return (([(0, 0), ((width : ℤ) - 1, 0), ((width : ℤ) - 1, (height : ℤ) - 1),
      (0, (height : ℤ) - 1)],
    [(tlx, tly), (trx, tryy), (brx, bry), (blx, bly)]), r8)

/-- `Perspective.get_perspective_params`: with `random_seed` set, both
global generators are reseeded before sampling. -/
def Perspective.get_perspective_params (width height : ℕ) (d : ℚ)
    (random_seed : Option ℕ) (r : RandSt) :
    Except GeoErr ((List (ℤ × ℤ) × List (ℤ × ℤ)) × RandSt) :=
  Perspective.get_perspective_params_core width height d (applySeed random_seed r)

/-- `Perspective.forward`: `solve` abstracts torchvision's
`_get_perspective_coeffs` (its defining equations are `IsPerspCoeffs`);
both the image and the mask are warped by `F.perspective` with its
default bilinear interpolation. -/
def Perspective.forward (solve : List (ℤ × ℤ) → List (ℤ × ℤ) → PCoeffs)
    (min_distortion_scale max_distortion_scale : Option ℚ) (random_seed : Option ℕ)
    (image mask : Mat) (distortion_scale : Option ℚ) (r : RandSt) :
    Except GeoErr ((Mat × Mat) × RandSt) :=
  match (match distortion_scale with
         | some d => (.ok (d, r) : Except GeoErr (ℚ × RandSt))
         | none => Perspective.get_random_distortion_scale
             min_distortion_scale max_distortion_scale r) with
  | .error e => .error e
  | .ok (d, r1) =>
    match Perspective.get_perspective_params (matW image) image.length d random_seed r1 with
    | .error e => .error e
    | .ok ((sp, ep), r2) =>
      .ok ((perspWarp (solve sp ep) image, perspWarp (solve sp ep) mask), r2)

def okB (e : Except GeoErr ((Batch × Batch) × RandSt)) : Option (Batch × Batch) :=
  match e with
  | .ok (p, _) => some p
  | .error _ => none

def okPts (e : Except GeoErr ((List (ℤ × ℤ) × List (ℤ × ℤ)) × RandSt)) :
    Option (List (ℤ × ℤ) × List (ℤ × ℤ)) :=
  match e with
  | .ok (p, _) => some p
  | .error _ => none

/-- Claim C9 (amended): an explicit seed resets both process-wide
generators before sampling, so a seeded call — including its returned
generator state — is entirely determined by the seed and the stream
algorithms, independent of the prior generator positions.  The reseed
therefore persists past the call (the prior positions are forgotten),
which is what the counterexample observes leaking into later unseeded
calls. -/
theorem seeded_reseed_scope :
    (∀ (ts ps : ℕ → ℕ → ℕ) (tg pg tg2 pg2 : Gen) rmn rmx cmn cmx images masks sizes s,
        CropResizePad.forward rmn rmx cmn cmx images masks sizes (some s) ⟨ts, ps, tg, pg⟩
          = CropResizePad.forward rmn rmx cmn cmx images masks sizes (some s)
              ⟨ts, ps, tg2, pg2⟩) ∧
    (∀ (ts ps : ℕ → ℕ → ℕ) (tg pg tg2 pg2 : Gen) w h d s,
        Perspective.get_perspective_params w h d (some s) ⟨ts, ps, tg, pg⟩
          = Perspective.get_perspective_params w h d (some s) ⟨ts, ps, tg2, pg2⟩) :=
  ⟨fun _ _ _ _ _ _ _ _ _ _ _ _ _ _ => rfl, fun _ _ _ _ _ _ _ _ _ _ => rfl⟩

/-- Two unseeded `get_perspective_params` calls with an optional
intermediate action on the global state: returns the endpoints of the
second call. -/
def leakProbe (mid : RandSt → RandSt) (r0 : RandSt) : Option (List (ℤ × ℤ)) :=
  match Perspective.get_perspective_params 4 4 q1 none r0 with
  | .error _ => none
  | .ok (_, r1) =>
    match Perspective.get_perspective_params 4 4 q1 none (mid r1) with
    | .error _ => none
    | .ok ((_, ep), _) => some ep

/-- Run one seeded `CropResizePad.forward` call for its state effect. -/
def afterSeededCrp (r : RandSt) : RandSt :=
  match CropResizePad.forward (some q1) (some q1) (some q1) (some q1)
      [[[[q1]]]] [[[[q1]]]] (some (q1, q1, q1, q1)) (some 5) r with
  | .ok (_, r2) => r2
  | .error _ => r

def leakRand : RandSt := ⟨fun s ix => s + ix, fun s ix => s + ix, ⟨0, 0⟩, ⟨0, 0⟩⟩

/-- Counterexample to C9 as stated: inserting a seeded CropResizePad
call between two unseeded Perspective calls changes what the later
unseeded call samples — the global reseed leaks out of the seeded call. -/
theorem seeded_reseed_scope_cex :
    leakProbe id leakRand ≠ leakProbe afterSeededCrp leakRand := by decide

/-! ### Claim C2: the Perspective mask branch -/

def c2coef : PCoeffs := ⟨mkRat 3 2, q0, qneg (mkRat 3 2), q0, q1, q0, q0, q0⟩

def c2img : Mat := [[q0, q1, q0, q1], [q0, q1, q0, q1]]

def c2rand : RandSt := ⟨fun _ _ => 1, fun _ _ => 1, ⟨0, 0⟩, ⟨0, 0⟩⟩

def c2solve : List (ℤ × ℤ) → List (ℤ × ℤ) → PCoeffs := fun _ _ => c2coef

def c2sp : List (ℤ × ℤ) := [(0, 0), (3, 0), (3, 1), (0, 1)]

def c2ep : List (ℤ × ℤ) := [(1, 0), (3, 0), (3, 1), (1, 1)]

instance isPerspCoeffsDec (pc : PCoeffs) (sp ep : List (ℤ × ℤ)) :
    Decidable (IsPerspCoeffs pc sp ep) := by
  unfold IsPerspCoeffs
  infer_instance

/-- Output mask pixel (0, 2) of the concrete Perspective run. -/
def c2maskPix : ℚ :=
  match Perspective.forward c2solve (some (mkRat 1 10)) (some qhalf) none
      c2img c2img (some qhalf) c2rand with
  | .ok ((_, m), _) => getPixD m 0 2 q0
  | .error _ => q0

/-- Claim C2 (code bug): `Perspective.forward` warps the mask with
`F.perspective`'s default BILINEAR interpolation (the code passes no
interpolation argument), so a {0,1}-valued mask can come out with the
intermediate value 1/2.  Concretely: on a 2×4 mask alternating 0/1,
with distortion 1/2 and the corner points actually sampled by the shown
generator state (first conjunct), any solver satisfying torchvision's
defining equations at these points (second conjunct: `c2coef` does)
yields output mask pixel (0, 2) = 1/2 ∉ {0, 1}. -/
theorem perspective_mask_bilinear_bug :
    okPts (Perspective.get_perspective_params 4 2 qhalf none c2rand) = some (c2sp, c2ep) ∧
    IsPerspCoeffs c2coef c2sp c2ep ∧
    c2maskPix = qhalf ∧
    ¬ qhalf = q0 ∧ ¬ qhalf = q1 := by
  decide

/-! ### Identity lemmas for the degenerate (all-1.0) CropResizePad run -/

theorem qn_eq (n : ℕ) : qn n = (n : ℚ) := by
  simp [qn, Rat.mkRat_one]

theorem qz_eq (z : ℤ) : qz z = (z : ℚ) := by
  simp [qz, Rat.mkRat_one]

theorem q0_eq : q0 = 0 := rfl

theorem q1_eq : q1 = 1 := rfl

theorem qhalf_eq : qhalf = 1 / 2 := by
  rw [qhalf, Rat.mkRat_eq_div]
  norm_num

theorem qmul_one_qn (n : ℕ) : qmul q1 (qn n) = qn n := by
  rw [qmul_eq, q1_eq, one_mul]

theorem range_map_getD (α : Type) (d : α) (l : List α) :
    (List.range l.length).map (fun i => (l[i]?).getD d) = l := by
  induction l with
  | nil => rfl
  | cons x xs ih =>
    rw [List.length_cons, List.range_succ_eq_map, List.map_cons, List.map_map]
    have h1 : ((fun i => (((x :: xs)[i]?).getD d)) ∘ Nat.succ)
        = fun i => ((xs[i]?).getD d) := by
      funext i
      simp
    rw [h1, ih]
    simp

theorem interpAt_self (xs : List ℚ) (n i : ℕ) (hn : xs.length = n) (hi : i < n) :
    interpAt xs n n i = (xs[i]?).getD q0 := by
  subst hn
  have hl0 : 0 < xs.length := lt_of_le_of_lt (Nat.zero_le i) hi
  have hn0 : ((xs.length : ℚ)) ≠ 0 := by
    exact_mod_cast hl0.ne'
  have hs : max q0 (qsub (qdiv (qmul (qadd (qn i) qhalf) (qn xs.length)) (qn xs.length))
      qhalf) = (i : ℚ) := by
    rw [qsub_eq, qdiv_eq, qmul_eq, qadd_eq, qn_eq, qn_eq, qhalf_eq, q0_eq]
    rw [mul_div_cancel_right₀ _ hn0]
    rw [add_sub_cancel_right]
    exact max_eq_right (by positivity)
  simp only [interpAt]
  rw [hs, Int.floor_natCast, Int.toNat_natCast]
  have hy0 : min i (xs.length - 1) = i := Nat.min_eq_left (by omega)
  rw [hy0]
  simp only [qsub_eq, qadd_eq, qmul_eq, qz_eq, q1_eq]
  push_cast
  ring

theorem rowOf_mem (m : Mat) (i : ℕ) (hi : i < m.length) : rowOf m i ∈ m := by
  unfold rowOf
  rw [List.getElem?_eq_getElem hi]
  exact List.getElem_mem hi

theorem range_map_row (m : Mat) (i : ℕ) (hi : i < m.length)
    (hrect : ∀ row ∈ m, row.length = matW m) :
    (List.range (matW m)).map (fun j => getPixD m i j q0) = rowOf m i := by
  have hl : (rowOf m i).length = matW m := hrect _ (rowOf_mem m i hi)
  rw [← hl]
  exact range_map_getD ℚ q0 (rowOf m i)

theorem mat_reconstruct (m : Mat) (hrect : ∀ row ∈ m, row.length = matW m) :
    (List.range m.length).map
      (fun i => (List.range (matW m)).map fun j => getPixD m i j q0) = m := by
  have h1 : (List.range m.length).map
      (fun i => (List.range (matW m)).map fun j => getPixD m i j q0)
      = (List.range m.length).map (fun i => rowOf m i) := by
    refine List.map_congr_left ?_
    intro i hi
    rw [List.mem_range] at hi
    exact range_map_row m i hi hrect
  rw [h1]
  exact range_map_getD (List ℚ) [] m

theorem resizeBilinear_self (m : Mat) (hrect : ∀ row ∈ m, row.length = matW m) :
    resizeBilinear m.length (matW m) m = m := by
  unfold resizeBilinear
  refine Eq.trans (List.map_congr_left ?_) (mat_reconstruct m hrect)
  intro i hi
  rw [List.mem_range] at hi
  refine List.map_congr_left ?_
  intro j hj
  rw [List.mem_range] at hj
  have hcol : ((List.range m.length).map fun y => interpAt (rowOf m y) (matW m) (matW m) j)
      = (List.range m.length).map (fun y => getPixD m y j q0) := by
    refine List.map_congr_left ?_
    intro y hy
    rw [List.mem_range] at hy
    exact interpAt_self (rowOf m y) (matW m) j (hrect _ (rowOf_mem m y hy)) hj
  rw [hcol]
  rw [interpAt_self _ _ i (by simp) hi]
  rw [List.getElem?_map, List.getElem?_range hi]
  rfl

theorem resizeNearest_self (m : Mat) (hrect : ∀ row ∈ m, row.length = matW m) :
    resizeNearest m.length (matW m) m = m := by
  unfold resizeNearest
  refine Eq.trans (List.map_congr_left ?_) (mat_reconstruct m hrect)
  intro i hi
  rw [List.mem_range] at hi
  refine List.map_congr_left ?_
  intro j hj
  rw [List.mem_range] at hj
  rw [Nat.mul_div_cancel i (lt_of_le_of_lt (Nat.zero_le i) hi),
    Nat.mul_div_cancel j (lt_of_le_of_lt (Nat.zero_le j) hj)]

theorem cropM_full (m : Mat) (hrect : ∀ row ∈ m, row.length = matW m) :
    cropM m 0 0 m.length (matW m) = m := by
  unfold cropM
  simp only [List.drop_zero, List.take_length]
  have h1 : ∀ row ∈ m, row.take (matW m) = row := by
    intro row hr
    rw [← hrect row hr, List.take_length]
  calc m.map (fun row => (row.drop 0).take (matW m))
      = m.map id := List.map_congr_left (by simpa using h1)
    _ = m := List.map_id m

theorem getPixD_default_irrel (m : Mat) (i j : ℕ) (d d2 : ℚ) (hi : i < m.length)
    (hj : j < (rowOf m i).length) : getPixD m i j d = getPixD m i j d2 := by
  unfold getPixD
  unfold rowOf at hj
  rw [List.getElem?_eq_getElem hi] at hj ⊢
  simp only [Option.getD_some] at hj ⊢
  rw [List.getElem?_eq_getElem hj]
  rfl

theorem embed_full (fill : ℚ) (sub : Mat)
    (hrect : ∀ row ∈ sub, row.length = matW sub) :
    embed sub.length (matW sub) fill sub 0 0 = sub := by
  unfold embed
  refine Eq.trans (List.map_congr_left ?_) (mat_reconstruct sub hrect)
  intro i hi
  rw [List.mem_range] at hi
  refine List.map_congr_left ?_
  intro j hj
  rw [List.mem_range] at hj
  rw [if_pos ⟨Nat.zero_le i, by omega, Nat.zero_le j, by omega⟩]
  simp only [Nat.sub_zero]
  exact getPixD_default_irrel sub i j fill q0 hi (by rw [hrect _ (rowOf_mem sub i hi)]; exact hj)

theorem batch_reconstruct (t : Batch) (B C : ℕ) (hB : t.length = B)
    (hC : ∀ s ∈ t, s.length = C) :
    (List.range B).map (fun b => (List.range C).map fun c => batchMat t b c) = t := by
  subst hB
  refine Eq.trans (List.map_congr_left ?_) (range_map_getD Chans [] t)
  intro b hb
  rw [List.mem_range] at hb
  have hsb : ((t[b]?).getD []).length = C := by
    rw [List.getElem?_eq_getElem hb]
    exact hC _ (List.getElem_mem hb)
  have h2 : (List.range C).map (fun c => batchMat t b c)
      = (List.range ((t[b]?).getD []).length).map
          (fun c => ((((t[b]?).getD [])[c]?)).getD []) := by
    rw [hsb]
    rfl
  rw [h2]
  exact range_map_getD Mat [] ((t[b]?).getD [])

theorem batchMat_wf (t : Batch) (B C H W : ℕ) (hB : t.length = B)
    (hC : ∀ s ∈ t, s.length = C)
    (hH : ∀ s ∈ t, ∀ m ∈ s, m.length = H ∧ ∀ row ∈ m, row.length = W)
    (b c : ℕ) (hb : b < B) (hc : c < C) :
    (batchMat t b c).length = H ∧ ∀ row ∈ batchMat t b c, row.length = W := by
  unfold batchMat
  have hbt : b < t.length := by omega
  rw [List.getElem?_eq_getElem hbt]
  simp only [Option.getD_some]
  have hst : t[b] ∈ t := List.getElem_mem hbt
  have hcl : c < (t[b]).length := by rw [hC _ hst]; exact hc
  rw [List.getElem?_eq_getElem hcl]
  simp only [Option.getD_some]
  exact hH _ hst _ (List.getElem_mem hcl)

theorem matW_of_wf (m : Mat) (W : ℕ) (h0 : 0 < m.length)
    (hr : ∀ row ∈ m, row.length = W) : matW m = W := by
  unfold matW
  cases m with
  | nil => simp at h0
  | cons r rs =>
    simp only [List.headD_cons]
    exact hr r (by simp)

theorem batchH_eq (t : Batch) (B C H W : ℕ) (hB : t.length = B)
    (hC : ∀ s ∈ t, s.length = C)
    (hH : ∀ s ∈ t, ∀ m ∈ s, m.length = H ∧ ∀ row ∈ m, row.length = W)
    (hB0 : 0 < B) (hC0 : 0 < C) : batchH t = H :=
  (batchMat_wf t B C H W hB hC hH 0 0 hB0 hC0).1

theorem batchW_eq (t : Batch) (B C H W : ℕ) (hB : t.length = B)
    (hC : ∀ s ∈ t, s.length = C)
    (hH : ∀ s ∈ t, ∀ m ∈ s, m.length = H ∧ ∀ row ∈ m, row.length = W)
    (hB0 : 0 < B) (hC0 : 0 < C) (hH0 : 0 < H) : batchW t = W := by
  obtain ⟨hl, hr⟩ := batchMat_wf t B C H W hB hC hH 0 0 hB0 hC0
  exact matW_of_wf _ W (by omega) hr

theorem batchC_eq (t : Batch) (B C : ℕ) (hB : t.length = B)
    (hC : ∀ s ∈ t, s.length = C) (hB0 : 0 < B) : batchC t = C := by
  unfold batchC
  cases t with
  | nil => rw [List.length_nil] at hB; omega
  | cons s ss =>
    simp only [List.headD_cons]
    exact hC s (by simp)

theorem torchRandint_succ (lo : ℤ) (r : RandSt) :
    torchRandint lo (lo + 1) r = .ok (lo, (torchDraw r).2) := by
  unfold torchRandint
  rw [if_pos (by omega)]
  simp [Int.emod_one]

theorem pyRandint00 (r : RandSt) : pyRandint 0 0 r = .ok (0, (pyDraw r).2) := by
  unfold pyRandint
  rw [if_pos le_rfl]
  simp [Int.emod_one]

theorem randomCropParams_same (h w : ℕ) (r : RandSt) :
    randomCropParams h w h w r = .ok ((0, 0, h, w), r) := by
  unfold randomCropParams
  rw [if_neg (by omega), if_pos ⟨rfl, rfl⟩]

theorem getRandomSize_ones (H W : ℕ) (r : RandSt) :
    getRandomSize (some q1) (some q1) H W r
      = .ok (((H : ℤ), (W : ℤ)), (torchDraw (torchDraw r).2).2) := by
  simp only [getRandomSize, qmul_one_qn, pyInt_natCast, torchRandint_succ]

theorem getRandomCropSize_ones_err (H W : ℕ) (r : RandSt) :
    getRandomCropSize (some q1) (some q1) H W r = .error .emptyRange := by
  simp only [getRandomCropSize, qmul_one_qn, pyInt_natCast]
  rw [torchRandint_err _ _ _ (min_le_right _ _)]

theorem crp_ones_sampled_err (images masks : Batch) (r : RandSt) :
    CropResizePad.forward (some q1) (some q1) (some q1) (some q1)
      images masks none none r = .error .emptyRange := by
  simp only [CropResizePad.forward, applySeed, crpMain, crpSizes, getRandomSize_ones,
    Int.toNat_natCast, getRandomCropSize_ones_err]

/-- Claim C7 (amended): with the explicit fraction 4-tuple (1,1,1,1),
CropResizePad is a no-op returning image and mask unchanged; but when
called with NO explicit sizes and `resize_min=resize_max=crop_min=crop_max=1.0`
the internal crop sampler's integer range `[int(1*h), min(int(1*h)+1, h))`
is empty and the call fails with the empty-range error — it is not a
no-op. -/
theorem crp_allones_noop (images masks : Batch) (B C CM H W : ℕ) (r : RandSt)
    (hB0 : 0 < B) (hC0 : 0 < C) (hH0 : 0 < H)
    (hIB : images.length = B) (hIC : ∀ s ∈ images, s.length = C)
    (hIH : ∀ s ∈ images, ∀ m ∈ s, m.length = H ∧ ∀ row ∈ m, row.length = W)
    (hMB : masks.length = B) (hMC : ∀ s ∈ masks, s.length = CM)
    (hMH : ∀ s ∈ masks, ∀ m ∈ s, m.length = H ∧ ∀ row ∈ m, row.length = W) :
    okB (CropResizePad.forward (some q1) (some q1) (some q1) (some q1)
        images masks (some (q1, q1, q1, q1)) none r) = some (images, masks) ∧
    (∀ (images2 masks2 : Batch) (r2 : RandSt),
        CropResizePad.forward (some q1) (some q1) (some q1) (some q1)
          images2 masks2 none none r2 = .error .emptyRange) := by
  refine ⟨?_, fun images2 masks2 r2 => crp_ones_sampled_err images2 masks2 r2⟩
  have hbh : batchH images = H := batchH_eq images B C H W hIB hIC hIH hB0 hC0
  have hbw : batchW images = W := batchW_eq images B C H W hIB hIC hIH hB0 hC0 hH0
  have hbc : batchC images = C := batchC_eq images B C hIB hIC hB0
  have hbcm : batchC masks = CM := batchC_eq masks B CM hMB hMC hB0
  simp only [CropResizePad.forward, applySeed, crpMain, crpSizes, hbh, hbw, hbc, hbcm,
    qmul_one_qn, pyInt_natCast, Int.toNat_natCast, clampCrop, min_self,
    randomCropParams_same]
  rw [if_neg (by omega)]
  simp only [sub_self, max_self, pyRandint00, Int.toNat_zero, okB, Option.some.injEq]
  rw [Prod.mk.injEq]
  constructor
  · trans ((List.range images.length).map fun b => (List.range C).map fun c => batchMat images b c)
    · refine List.map_congr_left ?_
      intro b hb
      rw [List.mem_range, hIB] at hb
      refine List.map_congr_left ?_
      intro c hc
      rw [List.mem_range] at hc
      obtain ⟨hml, hmr⟩ := batchMat_wf images B C H W hIB hIC hIH b c hb hc
      have hmw : matW (batchMat images b c) = W := matW_of_wf _ W (by omega) hmr
      have hrect : ∀ row ∈ batchMat images b c,
          row.length = matW (batchMat images b c) := by
        intro row hrow
        rw [hmw]
        exact hmr row hrow
      rw [← hml, ← hmw, resizeBilinear_self _ hrect, cropM_full _ hrect,
        embed_full _ _ hrect]
    · rw [hIB]
      exact batch_reconstruct images B C hIB hIC
  · trans ((List.range images.length).map fun b => (List.range CM).map fun c => batchMat masks b c)
    · refine List.map_congr_left ?_
      intro b hb
      rw [List.mem_range, hIB] at hb
      refine List.map_congr_left ?_
      intro c hc
      rw [List.mem_range] at hc
      obtain ⟨hml, hmr⟩ := batchMat_wf masks B CM H W hMB hMC hMH b c hb hc
      have hmw : matW (batchMat masks b c) = W := matW_of_wf _ W (by omega) hmr
      have hrect : ∀ row ∈ batchMat masks b c,
          row.length = matW (batchMat masks b c) := by
        intro row hrow
        rw [hmw]
        exact hmr row hrow
      rw [← hml, ← hmw, resizeNearest_self _ hrect, cropM_full _ hrect,
        embed_full _ _ hrect]
    · rw [hIB]
      exact batch_reconstruct masks B CM hMB hMC

/-- Witness for C7 (amended): a concrete 1×1×1×1 batch through the
explicit (1,1,1,1) no-op path, and the sampled path failing. -/
theorem crp_allones_noop_witness :
    okB (CropResizePad.forward (some q1) (some q1) (some q1) (some q1)
        [[[[qn 7]]]] [[[[q1]]]] (some (q1, q1, q1, q1)) none randB)
      = some ([[[[qn 7]]]], [[[[q1]]]]) ∧
    (∀ (images2 masks2 : Batch) (r2 : RandSt),
        CropResizePad.forward (some q1) (some q1) (some q1) (some q1)
          images2 masks2 none none r2 = .error .emptyRange) :=
  crp_allones_noop [[[[qn 7]]]] [[[[q1]]]] 1 1 1 1 1 randB (by decide) (by decide)
    (by decide) (by decide) (by decide) (by decide) (by decide) (by decide) (by decide)

/-- Counterexample to C7 as stated: with the all-1.0 configuration and
no explicit sizes argument, the call is not a no-op — it fails. -/
theorem crp_allones_noop_cex :
    okB (CropResizePad.forward (some q1) (some q1) (some q1) (some q1)
        [[[[qn 7]]]] [[[[q1]]]] none none randA) ≠ some ([[[[qn 7]]]], [[[[q1]]]]) := by
  decide

theorem embed_dims (H W : ℕ) (fill : ℚ) (sub : Mat) (top left : ℕ) :
    (embed H W fill sub top left).length = H ∧
      ∀ row ∈ embed H W fill sub top left, row.length = W := by
  unfold embed
  constructor
  · simp
  · intro row hrow
    obtain ⟨i, _, rfl⟩ := List.mem_map.mp hrow
    simp

theorem crpMain_dims (rmn rmx cmn cmx : Option ℚ) (images masks : Batch)
    (sizes : Option (ℚ × ℚ × ℚ × ℚ)) (r : RandSt) (oi om : Batch)
    (hok : okB (crpMain rmn rmx cmn cmx images masks sizes r) = some (oi, om)) :
    oi.length = images.length ∧ om.length = images.length ∧
    (∀ s ∈ oi, s.length = batchC images ∧
      ∀ m ∈ s, m.length = batchH images ∧ ∀ row ∈ m, row.length = batchW images) ∧
    (∀ s ∈ om, s.length = batchC masks ∧
      ∀ m ∈ s, m.length = batchH images ∧ ∀ row ∈ m, row.length = batchW images) := by
  unfold crpMain at hok
  split at hok
  · simp [okB] at hok
  · split at hok
    · simp [okB] at hok
    · split at hok
      · simp [okB] at hok
      · split at hok
        · simp [okB] at hok
        · split at hok
          · simp [okB] at hok
          · simp only [okB, Option.some.injEq, Prod.mk.injEq] at hok
            obtain ⟨hoi, hom⟩ := hok
            subst hoi hom
            refine ⟨by simp, by simp, ?_, ?_⟩
            · intro s hs
              obtain ⟨b, _, rfl⟩ := List.mem_map.mp hs
              refine ⟨by simp, ?_⟩
              intro m hm
              obtain ⟨c, _, rfl⟩ := List.mem_map.mp hm
              exact ⟨(embed_dims _ _ _ _ _ _).1, (embed_dims _ _ _ _ _ _).2⟩
            · intro s hs
              obtain ⟨b, _, rfl⟩ := List.mem_map.mp hs
              refine ⟨by simp, ?_⟩
              intro m hm
              obtain ⟨c, _, rfl⟩ := List.mem_map.mp hm
              exact ⟨(embed_dims _ _ _ _ _ _).1, (embed_dims _ _ _ _ _ _).2⟩

/-- Claim C3 (amended): whenever `CropResizePad.forward` returns, the
output image and mask have the ORIGINAL spatial dimensions (and the
original channel counts); the crop is clamped to the resized dimensions
before use; and a clamped crop exceeding the original canvas raises the
"Crop size is larger than the original image size" error (the spec's
ValidationError), as the concrete oversized-sizes run shows.  (All-valid
configurations can still fail with an empty-range sampler error instead
of returning — see the counterexample.) -/
theorem crp_canvas_invariant :
    (∀ rmn rmx cmn cmx (images masks : Batch) sizes seed r (oi om : Batch),
        okB (CropResizePad.forward rmn rmx cmn cmx images masks sizes seed r)
            = some (oi, om) →
        oi.length = images.length ∧ om.length = images.length ∧
        (∀ s ∈ oi, s.length = batchC images ∧
          ∀ m ∈ s, m.length = batchH images ∧ ∀ row ∈ m, row.length = batchW images) ∧
        (∀ s ∈ om, s.length = batchC masks ∧
          ∀ m ∈ s, m.length = batchH images ∧ ∀ row ∈ m, row.length = batchW images)) ∧
    (∀ crop new : ℕ × ℕ,
        (clampCrop crop new).1 ≤ new.1 ∧ (clampCrop crop new).2 ≤ new.2) ∧
    errOf (CropResizePad.forward (some q1) (some q1) (some q1) (some q1)
        [[[[q1]]]] [[[[q1]]]] (some (qn 2, qn 2, q1, q1)) none randA)
      = some GeoErr.cropTooLarge := by
  refine ⟨?_, fun crop new => ⟨min_le_right _ _, min_le_right _ _⟩, by decide⟩
  intro rmn rmx cmn cmx images masks sizes seed r oi om hok
  exact crpMain_dims rmn rmx cmn cmx images masks sizes (applySeed seed r) oi om hok

/-- Witness for C3 (amended): the dimension facts instantiated on a
concrete successful run (the (1,1,1,1) explicit-sizes call on a
1×1×1×1 batch). -/
theorem crp_canvas_invariant_witness :
    ([[[[q1]]]] : Batch).length = ([[[[q1]]]] : Batch).length ∧
    ([[[[q0]]]] : Batch).length = ([[[[q1]]]] : Batch).length ∧
    (∀ s ∈ ([[[[q1]]]] : Batch), s.length = batchC [[[[q1]]]] ∧
      ∀ m ∈ s, m.length = batchH [[[[q1]]]] ∧ ∀ row ∈ m, row.length = batchW [[[[q1]]]]) ∧
    (∀ s ∈ ([[[[q0]]]] : Batch), s.length = batchC [[[[q0]]]] ∧
      ∀ m ∈ s, m.length = batchH [[[[q1]]]] ∧ ∀ row ∈ m, row.length = batchW [[[[q1]]]]) :=
  crp_canvas_invariant.1 (some q1) (some q1) (some q1) (some q1)
    [[[[q1]]]] [[[[q0]]]] (some (q1, q1, q1, q1)) none randB [[[[q1]]]] [[[[q0]]]]
    (by decide)

/-- Counterexample to C3 as stated: a configuration satisfying
`resize_min ≤ resize_max ≤ 1` and `crop_min ≤ crop_max ≤ 1` (all 1.0)
for which the call neither returns original-sized tensors nor raises
the ValidationError — the crop sampler's range is empty. -/
theorem crp_canvas_invariant_cex :
    okB (CropResizePad.forward (some q1) (some q1) (some q1) (some q1)
        [[[[q1, q0], [q0, q1]]]] [[[[q1, q0], [q0, q1]]]] none none randA) = none ∧
    errOf (CropResizePad.forward (some q1) (some q1) (some q1) (some q1)
        [[[[q1, q0], [q0, q1]]]] [[[[q1, q0], [q0, q1]]]] none none randA)
      = some GeoErr.emptyRange ∧
    GeoErr.emptyRange ≠ GeoErr.cropTooLarge := by
  decide
